import Mathlib

/-!
Verification development for the typed query-result binding layer of the
Flecs-Rust repository: the 64-bit identifier codec
(src/flecs_ecs/src/core/utility/functions.rs), the tuple binding protocol
(src/flecs_ecs_bridge/src/core/iterable.rs), and the custom grouping callback
(src/flecs_ecs/examples/flecs/query_group_by_custom.rs).

Machine integers (u64, u32) are embedded as Nat with explicit reduction
modulo 2 ^ 64 or 2 ^ 32 at the operations where Rust wrapping or truncation
can occur.
-/

namespace FlecsRust

/-! ## Identifier codec -/

/-- Modelled from the spec: the reserved PAIR flag bit. The constant is
declared in the c_types module of the repository (not under src); the spec
describes it as a reserved flag bit at the top of the 64-bit id, and the
engine defines it as bit 63, written `1 << 63` on u64. -/
def ECS_PAIR : Nat := 1 <<< 63

/-- Modelled from the spec: the flags mask covering the reserved flag bits at
the top of the id. Declared outside src as `0xFF << 60` on u64 (the shift
discards the bits above bit 63, leaving bits 60 to 63). -/
def RUST_ECS_ID_FLAGS_MASK : Nat := (0xFF <<< 60) % 2 ^ 64

/-- Modelled from the spec: the component mask, the bitwise complement of the
flags mask within 64 bits (declared outside src as `!RUST_ECS_ID_FLAGS_MASK`). -/
def RUST_ECS_COMPONENT_MASK : Nat := 2 ^ 64 - 1 - RUST_ECS_ID_FLAGS_MASK

/-- Modelled from the spec: the generation mask, the reserved bit range of the
generation counter. From src, `get_generation` reads it as
`((entity & ECS_GENERATION_MASK) >> 32) as u32`; the engine defines the mask as
`0xFFFF << 32` on u64 (bits 32 to 47). -/
def ECS_GENERATION_MASK : Nat := 0xFFFF <<< 32

/-- `ecs_entity_t_comb` from functions.rs: combines two 32-bit halves as
`(hi << 32) + lo` on u64 (shift and addition both wrap modulo 2 ^ 64). -/
def ecs_entity_t_comb (lo hi : Nat) : Nat :=
  ((hi <<< 32) % 2 ^ 64 + lo) % 2 ^ 64

/-- `ecs_pair` from functions.rs: `ECS_PAIR | ecs_entity_t_comb(obj, pred)`. -/
def ecs_pair (pred obj : Nat) : Nat :=
  ECS_PAIR ||| ecs_entity_t_comb obj pred

/-- `ecs_is_pair` from functions.rs: `entity & RUST_ECS_ID_FLAGS_MASK == ECS_PAIR`. -/
def ecs_is_pair (entity : Nat) : Bool :=
  decide (entity &&& RUST_ECS_ID_FLAGS_MASK = ECS_PAIR)

/-- `ecs_entity_t_lo` from functions.rs: `value as u32 as u64`, the low 32 bits. -/
def ecs_entity_t_lo (value : Nat) : Nat := value % 2 ^ 32

/-- `ecs_entity_t_hi` from functions.rs: `value >> 32` on u64. -/
def ecs_entity_t_hi (value : Nat) : Nat := value >>> 32

/-- `ecs_pair_first` from functions.rs: `ecs_entity_t_hi(e & RUST_ECS_COMPONENT_MASK)`. -/
def ecs_pair_first (e : Nat) : Nat :=
  ecs_entity_t_hi (e &&& RUST_ECS_COMPONENT_MASK)

/-- `ecs_pair_second` from functions.rs: `ecs_entity_t_lo(e)`. -/
def ecs_pair_second (e : Nat) : Nat := ecs_entity_t_lo e

/-- `get_generation` from functions.rs: `((entity & ECS_GENERATION_MASK) >> 32) as u32`. -/
def get_generation (entity : Nat) : Nat :=
  ((entity &&& ECS_GENERATION_MASK) >>> 32) % 2 ^ 32

/-- Modelled from the spec: `strip_generation` in functions.rs delegates to the
external engine function `ecs_strip_generation`, whose body is not under src.
The spec states that it clears the generation bits, leaving the index and the
pair/flag bits untouched, so it is modelled as masking the generation bit
range out of the id. -/
def strip_generation (entity : Nat) : Nat :=
  entity &&& (2 ^ 64 - 1 - ECS_GENERATION_MASK)

/-! ## Helper lemmas on the flag bit range -/

theorem flags_mask_val : RUST_ECS_ID_FLAGS_MASK = 0xF000000000000000 := by decide

theorem component_mask_val : RUST_ECS_COMPONENT_MASK = 2 ^ 60 - 1 := by decide

theorem ecs_pair_flag_val : ECS_PAIR = 2 ^ 63 := by decide

theorem testBit_flags (i : Nat) :
    Nat.testBit 0xF000000000000000 i = (decide (60 ≤ i) && decide (i < 64)) := by
  have h : (0xF000000000000000 : Nat) = (2 ^ 64 - 1) ^^^ (2 ^ 60 - 1) := by decide
  rw [h, Nat.testBit_xor, Nat.testBit_two_pow_sub_one, Nat.testBit_two_pow_sub_one]
  by_cases h1 : i < 60 <;> by_cases h2 : i < 64 <;>
    simp [h1, h2, show 60 ≤ i ↔ ¬ i < 60 by omega] <;> omega

theorem and_flags_of_lt {x : Nat} (hx : x < 2 ^ 60) :
    x &&& 0xF000000000000000 = 0 := by
  apply Nat.eq_of_testBit_eq
  intro i
  rw [Nat.testBit_and, testBit_flags, Nat.zero_testBit]
  by_cases h : i < 60
  · simp [show ¬ 60 ≤ i by omega]
  · have hxi : x < 2 ^ i :=
      lt_of_lt_of_le hx (Nat.pow_le_pow_right (by norm_num) (by omega))
    simp [Nat.testBit_lt_two_pow hxi]

/-! ## Claim theorems for the identifier codec -/

/-- Claim C4: for all 32-bit values a and b, the low accessor recovers a and
the high accessor recovers b from the combined 64-bit id, with
`ecs_entity_t_comb` as combine, `ecs_entity_t_lo` as lo, `ecs_entity_t_hi` as hi. -/
theorem comb_lo_hi_round_trip (a b : Nat) (ha : a < 2 ^ 32) (hb : b < 2 ^ 32) :
    ecs_entity_t_lo (ecs_entity_t_comb a b) = a ∧
      ecs_entity_t_hi (ecs_entity_t_comb a b) = b := by
  unfold ecs_entity_t_lo ecs_entity_t_hi ecs_entity_t_comb
  rw [Nat.shiftLeft_eq, Nat.shiftRight_eq_div_pow]
  constructor <;> omega

/-- Witness for claim C4 at a = 5, b = 7. -/
theorem comb_lo_hi_round_trip_witness :
    (5 : Nat) < 2 ^ 32 ∧ (7 : Nat) < 2 ^ 32 ∧
      (ecs_entity_t_lo (ecs_entity_t_comb 5 7) = 5 ∧
        ecs_entity_t_hi (ecs_entity_t_comb 5 7) = 7) :=
  ⟨by norm_num, by norm_num, comb_lo_hi_round_trip 5 7 (by norm_num) (by norm_num)⟩

/-- Counterexample for claim C3 as stated: the round trip fails for the id
p = 2 ^ 28 (whose shifted bits land in the flag bit range), o = 0: the built
pair is not even recognised as a pair, and the first extractor returns 0. -/
theorem pair_round_trip_counterexample :
    ¬(ecs_is_pair (ecs_pair (2 ^ 28) 0) = true ∧
      ecs_pair_first (ecs_pair (2 ^ 28) 0) = 2 ^ 28 ∧
      ecs_pair_second (ecs_pair (2 ^ 28) 0) = 0) := by decide

/-- Claim C3 (amended): for all ids p below 2 ^ 28 and o below 2 ^ 32,
`ecs_is_pair (ecs_pair p o)` is true, `ecs_pair_first` recovers p and
`ecs_pair_second` recovers o. The bounds are forced by the encoding: the
predicate occupies bits 32 to 59 (28 bits below the flag range) and the
object the low 32 bits. -/
theorem pair_round_trip (p o : Nat) (hp : p < 2 ^ 28) (ho : o < 2 ^ 32) :
    ecs_is_pair (ecs_pair p o) = true ∧
      ecs_pair_first (ecs_pair p o) = p ∧
      ecs_pair_second (ecs_pair p o) = o := by
  have hcomb : ecs_entity_t_comb o p = p * 2 ^ 32 + o := by
    unfold ecs_entity_t_comb
    rw [Nat.shiftLeft_eq]
    omega
  have hx : p * 2 ^ 32 + o < 2 ^ 60 := by omega
  have hpair : ecs_pair p o = 2 ^ 63 ||| (p * 2 ^ 32 + o) := by
    unfold ecs_pair
    rw [hcomb, ecs_pair_flag_val]
  refine ⟨?_, ?_, ?_⟩
  · unfold ecs_is_pair
    rw [hpair, flags_mask_val, ecs_pair_flag_val, Nat.and_distrib_right,
      and_flags_of_lt hx, Nat.or_zero]
    decide
  · unfold ecs_pair_first ecs_entity_t_hi
    rw [hpair, component_mask_val, Nat.and_distrib_right,
      show (2 ^ 63 : Nat) &&& (2 ^ 60 - 1) = 0 by decide,
      Nat.and_pow_two_sub_one_eq_mod, Nat.mod_eq_of_lt hx,
      Nat.zero_or, Nat.shiftRight_eq_div_pow]
    omega
  · unfold ecs_pair_second ecs_entity_t_lo
    rw [hpair, ← Nat.and_pow_two_sub_one_eq_mod, Nat.and_distrib_right,
      show (2 ^ 63 : Nat) &&& (2 ^ 32 - 1) = 0 by decide,
      Nat.and_pow_two_sub_one_eq_mod, Nat.zero_or]
    omega

/-- Witness for the amended claim C3 at p = 5, o = 9. -/
theorem pair_round_trip_witness :
    (5 : Nat) < 2 ^ 28 ∧ (9 : Nat) < 2 ^ 32 ∧
      (ecs_is_pair (ecs_pair 5 9) = true ∧
        ecs_pair_first (ecs_pair 5 9) = 5 ∧
        ecs_pair_second (ecs_pair 5 9) = 9) :=
  ⟨by norm_num, by norm_num, pair_round_trip 5 9 (by norm_num) (by norm_num)⟩

/-- Counterexample for claim C5 as stated: for the id with both the PAIR bit
(bit 63) and the TOGGLE flag bit (bit 61) set, the PAIR bit is set in the
masked value, yet `ecs_is_pair` returns false, because the code compares the
whole masked value against ECS_PAIR by equality. -/
theorem is_pair_flagged_counterexample :
    Nat.testBit ((2 ^ 63 + 2 ^ 61) &&& RUST_ECS_ID_FLAGS_MASK) 63 = true ∧
      ecs_is_pair (2 ^ 63 + 2 ^ 61) = false := by decide

/-- Claim C5 (amended): for every id, `ecs_is_pair` returns true if and only
if the masked value equals the PAIR flag exactly, i.e. the PAIR bit (bit 63)
is set and no other flag bit of the flags mask (bits 60, 61, 62) is set. -/
theorem is_pair_exact_flag (e : Nat) :
    ecs_is_pair e = true ↔
      (Nat.testBit e 63 = true ∧ Nat.testBit e 62 = false ∧
        Nat.testBit e 61 = false ∧ Nat.testBit e 60 = false) := by
  unfold ecs_is_pair
  rw [decide_eq_true_eq, flags_mask_val, ecs_pair_flag_val]
  constructor
  · intro h
    have hb : ∀ i, Nat.testBit (e &&& 0xF000000000000000) i
        = Nat.testBit (2 ^ 63) i := by
      intro i
      rw [h]
    have h63 := hb 63
    have h62 := hb 62
    have h61 := hb 61
    have h60 := hb 60
    rw [Nat.testBit_and, testBit_flags] at h63 h62 h61 h60
    simp [Nat.testBit_two_pow] at h63 h62 h61 h60
    exact ⟨h63, h62, h61, h60⟩
  · rintro ⟨h63, h62, h61, h60⟩
    apply Nat.eq_of_testBit_eq
    intro i
    rw [Nat.testBit_and, testBit_flags, Nat.testBit_two_pow]
    by_cases hlo : i < 60
    · simp [show ¬ 60 ≤ i by omega, show ¬ (63 = i) by omega]
    · by_cases hhi : i < 64
      · have h60le : 60 ≤ i := by omega
        interval_cases i <;> simp [h63, h62, h61, h60]
      · simp [show ¬ i < 64 by omega, show ¬ (63 = i) by omega]

/-- Claim C8: `strip_generation` is idempotent, and stripping never alters the
index portion (the low 32 bits) nor the pair/flag bits (the bits selected by
the flags mask) of the id. -/
theorem strip_generation_idempotent (x : Nat) :
    strip_generation (strip_generation x) = strip_generation x ∧
      strip_generation x % 2 ^ 32 = x % 2 ^ 32 ∧
      strip_generation x &&& RUST_ECS_ID_FLAGS_MASK
        = x &&& RUST_ECS_ID_FLAGS_MASK := by
  unfold strip_generation
  have hm : 2 ^ 64 - 1 - ECS_GENERATION_MASK = 0xFFFF0000FFFFFFFF := by decide
  rw [hm, flags_mask_val]
  refine ⟨?_, ?_, ?_⟩
  · rw [Nat.and_assoc,
      show (0xFFFF0000FFFFFFFF : Nat) &&& 0xFFFF0000FFFFFFFF
        = 0xFFFF0000FFFFFFFF from Nat.and_self _]
  · rw [← Nat.and_pow_two_sub_one_eq_mod, ← Nat.and_pow_two_sub_one_eq_mod,
      Nat.and_assoc,
      show (0xFFFF0000FFFFFFFF : Nat) &&& (2 ^ 32 - 1) = 2 ^ 32 - 1 by decide]
  · rw [Nat.and_assoc,
      show (0xFFFF0000FFFFFFFF : Nat) &&& 0xF000000000000000
        = 0xF000000000000000 by decide]

/-! ## Field pointers and row materialization (iterable.rs) -/

/-- A raw component field pointer as handed back by the field resolver
(ecs_field): none models the null pointer (an optional field with no backing
column); some f models a non-null pointer whose element at offset i is f i. -/
abbrev FieldPtr (α : Type) := Option (Nat → α)

/-- Dereference a field pointer at an offset. A none result marks a null
pointer dereference, which in the Rust source is undefined behaviour. -/
def FieldPtr.read {α : Type} (p : FieldPtr α) (i : Nat) : Option α :=
  p.map fun f => f i

/-- get_tuple_with_ref of the Iterable impl for the one member tuple of a
required component in iterable.rs: element 0 when is_ref, element index
otherwise. -/
def getTupleWithRef_A {α : Type} (pa : FieldPtr α) (isRefA : Bool)
    (index : Nat) : Option α :=
  if isRefA then pa.read 0 else pa.read index

/-- get_tuple_with_ref of the Iterable impl for the one member tuple of an
optional component in iterable.rs: the null pointer is checked first and
yields the absent member without any dereference. -/
def getTupleWithRef_OptA {α : Type} (pa : FieldPtr α) (isRefA : Bool)
    (index : Nat) : Option (Option α) :=
  match pa with
  | none => some none
  | some f => if isRefA then some (some (f 0)) else some (some (f index))

/-- get_tuple_with_ref of the Iterable impl for the two required member tuple
in iterable.rs: each member is dereferenced at element 0 when its is_ref flag
is set, at element index otherwise. -/
def getTupleWithRef_AB {α β : Type} (pa : FieldPtr α) (pb : FieldPtr β)
    (isRefA isRefB : Bool) (index : Nat) : Option (α × β) :=
  (if isRefA then pa.read 0 else pa.read index).bind fun a =>
    (if isRefB then pb.read 0 else pb.read index).bind fun b =>
      some (a, b)

/-- get_tuple_with_ref of the Iterable impl for the required plus optional
pair in iterable.rs: the source computes the optional member as Some of a
dereference in both branches of the is_ref test, without the is_null check
that the sibling get_tuple and the macro generated impls perform. -/
def getTupleWithRef_A_OptB {α β : Type} (pa : FieldPtr α) (pb : FieldPtr β)
    (isRefA isRefB : Bool) (index : Nat) : Option (α × Option β) :=
  (if isRefA then pa.read 0 else pa.read index).bind fun a =>
    (if isRefB then pb.read 0 else pb.read index).bind fun b =>
      some (a, some b)

/-- return_type_for_tuple_with_ref of the required TupleForm impl of the
Wrapper type in iterable.rs, used by the macro generated arities 4 to 12. -/
def return_type_for_tuple_with_ref {α : Type} (array : FieldPtr α)
    (is_ref : Bool) (index : Nat) : Option α :=
  if is_ref then array.read 0 else array.read index

/-- return_type_for_tuple_with_ref of the optional TupleForm impl of the
Wrapper type in iterable.rs: the null pointer is checked first and yields the
absent member. -/
def return_type_for_tuple_with_ref_opt {α : Type} (array : FieldPtr α)
    (is_ref : Bool) (index : Nat) : Option (Option α) :=
  match array with
  | none => some none
  | some f => if is_ref then some (some (f 0)) else some (some (f index))

/-! ## Term descriptors: populate and register_ids_descriptor -/

/-- Modelled from the spec: term operator kinds. The operator field of a term
lives in the c_types module of the repository (not under src); the spec
distinguishes only the default Required operator from Optional, which is all
the tuple binding protocol ever writes. -/
inductive OperT where
  | required : OperT
  | optional : OperT
deriving DecidableEq

/-- One term slot of a filter/query descriptor: a component identifier and an
operator kind. -/
structure TermT where
  id : Nat
  oper : OperT
deriving DecidableEq

/-- The effect of one tuple member on its term slot in iterable.rs: the
component identifier is always written; the operator is set to Optional only
when the member is declared Option, and left untouched otherwise. -/
def setTermId (cid : Nat) (isOpt : Bool) (t : TermT) : TermT :=
  ⟨cid, if isOpt then OperT.optional else t.oper⟩

/-- Replace the element at a position by the image under f (out of range
leaves the list unchanged): the slot update primitive shared by the two term
writing paths. -/
def modifyAt {α : Type} (f : α → α) : Nat → List α → List α
  | _, [] => []
  | 0, a :: l => f a :: l
  | n + 1, a :: l => a :: modifyAt f n l

/-- The cursor state of a Filterable: the term slots and the current term
index; current_term reads the slot at the cursor and next_term advances it. -/
structure FilterState where
  terms : List TermT
  cursor : Nat
deriving DecidableEq

/-- A tuple implementation is characterised by its member pattern in declared
order: for each member, the component identifier obtained from the type to id
lookup on the world, and whether the member is declared Option. -/
abbrev MemberPattern := List (Nat × Bool)

/-- populate of the Iterable impls in iterable.rs (hand written arities 0 to 3
and the impl_iterable generated arities 4 to 12): for each member in declared
order, write its component identifier into the current term slot, mark the
operator Optional when the member is declared Option, advance the cursor. -/
def populate : MemberPattern → FilterState → FilterState
  | [], s => s
  | (cid, isOpt) :: rest, s =>
      populate rest ⟨modifyAt (setTermId cid isOpt) s.cursor s.terms, s.cursor + 1⟩

/-- register_ids_descriptor of the Iterable impls in iterable.rs: the same
per member writes, performed directly into the pre-allocated descriptor term
slots by the positional index term_index, which starts at 0. -/
def register_ids_descriptor : MemberPattern → Nat → List TermT → List TermT
  | [], _, terms => terms
  | (cid, isOpt) :: rest, k, terms =>
      register_ids_descriptor rest (k + 1) (modifyAt (setTermId cid isOpt) k terms)

/-! ## The matched block view and gather (get_array_ptrs_of_components) -/

/-- The view of one matched storage block consumed by gather: the optional
per field source entity array (none models a null sources pointer) and the
field resolver mapping a 1-based field index to the raw data pointer. -/
structure IterView (α : Type) where
  sources : Option (Nat → Nat)
  fieldData : Nat → FieldPtr α

/-- The pointer gathering of get_array_ptrs_of_components: member i of an
arity n tuple is resolved with the 1-based field index i + 1. -/
def gatherPtrs {α : Type} (n : Nat) (it : IterView α) : List (FieldPtr α) :=
  (List.range n).map fun i => it.fieldData (i + 1)

/-- The is_ref gathering of get_array_ptrs_of_components: entry i tests that
the source entry of field i is nonzero when the block exposes a source array,
and is false for every member otherwise. -/
def gatherIsRef {α : Type} (n : Nat) (it : IterView α) : List Bool :=
  match it.sources with
  | some src => (List.range n).map fun i => decide (src i ≠ 0)
  | none => List.replicate n false

/-- is_any_array_a_ref of get_array_ptrs_of_components: the or chain over the
gathered is_ref entries (the macro generated arities end the chain with a
trailing false; arity 0 yields false outright). -/
def isAnyArrayARef (l : List Bool) : Bool :=
  l.foldr (fun b acc => b || acc) false

/-- One pointer gathering pass of the impl_iterable generated
get_array_ptrs_of_components: starting from the running 1-based field index s,
resolve n consecutive fields, recording the index handed to the field
resolver at each call. -/
def fieldCallsFrom : Nat → Nat → List Nat
  | _, 0 => []
  | s, n + 1 => s :: fieldCallsFrom (s + 1) n

/-- The full sequence of field resolver calls made by the impl_iterable
generated get_array_ptrs_of_components: the running index starts at 1, the
first pointer array resolves fields 1 to n, then a second array (bound to
array_components2 and never used) is built from the same running index,
resolving fields n + 1 to 2 n. -/
def expandedGatherFieldCalls (n : Nat) : List Nat :=
  fieldCallsFrom 1 n ++ fieldCallsFrom (n + 1) n

/-! ## The relationship grouping callback (query_group_by_custom.rs) -/

/-- Modelled from the spec: the engine search primitive ecs_search, which is
not under src. A block is modelled as the list of identifiers it holds;
searching for the wildcard pair pattern built from relId and the wildcard
placeholder returns the first identifier of the block that is a pair whose
first component is relId, or none when the block holds no match. -/
def ecs_search_first (block : List Nat) (relId : Nat) : Option Nat :=
  block.find? fun m => ecs_is_pair m && decide (ecs_pair_first m = relId)

/-- callback_group_by_relationship of query_group_by_custom.rs: build the
wildcard pair from the grouped identifier, search the block with the engine
search primitive, and return the second component of the matched identifier
as the group key, or 0 when the search reports no match. The pair view
construction and ecs_search live outside src and enter through the spec
modelled ecs_search_first. -/
def callback_group_by_relationship (block : List Nat) (id : Nat) : Nat :=
  match ecs_search_first block id with
  | some match_id => ecs_pair_second match_id
  | none => 0

/-- A concrete block view used by the gather witness: field i has source
entity i and every data pointer is null. -/
def itW : IterView Nat :=
  ⟨some fun i => i, fun _ => none⟩

/-! ## Claim theorems for the tuple binding protocol -/

/-- Claim C1 (code evidence): the general materialize variant of the
required plus optional pair impl dereferences the gathered optional pointer
without a null check, so at a null second pointer it performs a null
dereference (modelled as none) instead of producing the absent member; the
one member optional impl and the optional Wrapper form, by contrast, yield
the absent member at a null pointer. -/
theorem optional_null_deref_A_OptB :
    @getTupleWithRef_A_OptB Nat Nat (some fun _ => 7) none false false 0 = none ∧
      @getTupleWithRef_OptA Nat none false 0 = some none ∧
      @return_type_for_tuple_with_ref_opt Nat none false 0 = some none :=
  ⟨rfl, rfl, rfl⟩

/-- Claim C2: in the general materialize variant a required member reads
element row of its array when its is_ref flag is false and element 0 (the
single broadcast element, regardless of row) when the flag is true; shown for
both required members of the two member impl and for the required
return_type_for_tuple_with_ref of the Wrapper type used by the macro
generated arities. -/
theorem required_member_indexing {α β : Type} (f : Nat → α) (g : Nat → β)
    (rA rB : Bool) (row : Nat) :
    getTupleWithRef_AB (some f) (some g) rA rB row
        = some (f (if rA then 0 else row), g (if rB then 0 else row)) ∧
      return_type_for_tuple_with_ref (some f) true row = some (f 0) ∧
      return_type_for_tuple_with_ref (some f) false row = some (f row) := by
  refine ⟨?_, rfl, rfl⟩
  cases rA <;> cases rB <;> rfl

theorem populate_spec (pattern : MemberPattern) :
    ∀ (k : Nat) (terms : List TermT),
      populate pattern ⟨terms, k⟩
        = ⟨register_ids_descriptor pattern k terms, k + pattern.length⟩ := by
  induction pattern with
  | nil =>
      intro k terms
      simp [populate, register_ids_descriptor]
  | cons hd tl ih =>
      intro k terms
      obtain ⟨cid, isOpt⟩ := hd
      show populate tl ⟨modifyAt (setTermId cid isOpt) k terms, k + 1⟩ = _
      rw [ih]
      simp [register_ids_descriptor]
      omega

/-- Claim C6: for every member pattern (every arity and required/optional
combination), register_ids_descriptor writes into descriptor slot k exactly
the component identifier and operator kind that populate writes into the k-th
term slot through the cursor: starting from cursor 0 the two term writing
paths produce the same term list, and the cursor ends past the written
slots. -/
theorem populate_equiv_register (pattern : MemberPattern) (terms : List TermT) :
    (populate pattern ⟨terms, 0⟩).terms = register_ids_descriptor pattern 0 terms ∧
      (populate pattern ⟨terms, 0⟩).cursor = pattern.length := by
  rw [populate_spec pattern 0 terms]
  exact ⟨rfl, by simp⟩

theorem isAnyArrayARef_eq_any (l : List Bool) : isAnyArrayARef l = l.any id := by
  induction l with
  | nil => rfl
  | cons b l ih =>
      show (b || isAnyArrayARef l) = (b :: l).any id
      rw [ih, List.any_cons]
      rfl

/-- Claim C7: for every arity n (including 0) and every block view, gather
resolves n pointers, produces is_ref entry i as the test that the source
entry of field i is nonzero when the block exposes a source array and false
for every member otherwise, and any_ref is the logical or of all is_ref
entries, hence false at arity 0, where both gathered arrays are empty. -/
theorem gather_is_ref_spec {α : Type} (n : Nat) (it : IterView α) :
    (gatherPtrs n it).length = n ∧
      (gatherIsRef n it).length = n ∧
      (∀ i, i < n →
        (gatherIsRef n it)[i]? =
          some (match it.sources with
                | some src => decide (src i ≠ 0)
                | none => false)) ∧
      isAnyArrayARef (gatherIsRef n it) = (gatherIsRef n it).any id ∧
      (gatherPtrs 0 it = [] ∧ gatherIsRef 0 it = [] ∧
        isAnyArrayARef (gatherIsRef 0 it) = false) := by
  refine ⟨?_, ?_, ?_, isAnyArrayARef_eq_any _, ?_, ?_, ?_⟩
  · simp [gatherPtrs]
  · cases h : it.sources <;> simp [gatherIsRef, h]
  · intro i hi
    cases h : it.sources with
    | none => simp [gatherIsRef, h, hi]
    | some src => simp [gatherIsRef, h, hi]
  · simp [gatherPtrs]
  · cases h : it.sources <;> simp [gatherIsRef, h]
  · cases h : it.sources <;> simp [gatherIsRef, h, isAnyArrayARef]

/-- Witness for claim C7 at arity 2 on the concrete block view itW, reading
the gathered is_ref entry of the first field. -/
theorem gather_is_ref_spec_witness :
    (0 : Nat) < 2 ∧
      (gatherIsRef 2 itW)[0]? =
        some (match itW.sources with
              | some src => decide (src 0 ≠ 0)
              | none => false) :=
  ⟨by decide, (gather_is_ref_spec 2 itW).2.2.1 0 (by decide)⟩

theorem fieldCallsFrom_length (s n : Nat) : (fieldCallsFrom s n).length = n := by
  induction n generalizing s with
  | zero => rfl
  | succ n ih => simp [fieldCallsFrom, ih]

theorem mem_fieldCallsFrom {s n j : Nat} (h : j ∈ fieldCallsFrom s n) :
    s ≤ j ∧ j < s + n := by
  induction n generalizing s with
  | zero => simp [fieldCallsFrom] at h
  | succ n ih =>
      simp only [fieldCallsFrom, List.mem_cons] at h
      rcases h with h | h
      · omega
      · have := ih h
        omega

theorem fieldCallsFrom_eq (s n : Nat) :
    fieldCallsFrom s n = (List.range n).map (· + s) := by
  induction n generalizing s with
  | zero => rfl
  | succ n ih =>
      rw [List.range_succ_eq_map]
      show s :: fieldCallsFrom (s + 1) n = _
      rw [ih]
      simp [List.map_map, Function.comp]
      intro a _
      omega

/-- Claim C10: for every macro generated arity (4 to 12), the gather of
get_array_ptrs_of_components invokes the field resolver 2 n times rather than
n: the first pointer array resolves field indices 1 to n, and the second,
discarded array continues with indices n + 1 to 2 n, every one of which
exceeds the declared field count n of the tuple. -/
theorem expanded_gather_double_resolve (n : Nat) (h4 : 4 ≤ n) (h12 : n ≤ 12) :
    (expandedGatherFieldCalls n).length = 2 * n ∧
      fieldCallsFrom 1 n = (List.range n).map (· + 1) ∧
      (∀ j, j ∈ fieldCallsFrom (n + 1) n → n < j ∧ j ≤ 2 * n) := by
  refine ⟨?_, fieldCallsFrom_eq 1 n, ?_⟩
  · simp [expandedGatherFieldCalls, fieldCallsFrom_length]
    omega
  · intro j hj
    have := mem_fieldCallsFrom hj
    omega

/-- Witness for claim C10 at arity 4. -/
theorem expanded_gather_double_resolve_witness :
    (4 : Nat) ≤ 4 ∧ (4 : Nat) ≤ 12 ∧
      ((expandedGatherFieldCalls 4).length = 2 * 4 ∧
        fieldCallsFrom 1 4 = (List.range 4).map (· + 1) ∧
        (∀ j, j ∈ fieldCallsFrom (4 + 1) 4 → 4 < j ∧ j ≤ 2 * 4)) :=
  ⟨by decide, by decide, expanded_gather_double_resolve 4 (by decide) (by decide)⟩

/-- Claim C9: for every block and relationship identifier, the grouping
callback returns the second component of the first identifier of the block
matching the wildcard pair pattern whenever the search primitive finds one
(and that identifier is indeed a matching member of the block), and returns 0
when the search finds no match; the callback is a total function and never
fails. -/
theorem group_by_relationship_spec (block : List Nat) (id : Nat) :
    (∀ m, ecs_search_first block id = some m →
        callback_group_by_relationship block id = ecs_pair_second m ∧
          m ∈ block ∧
          (ecs_is_pair m && decide (ecs_pair_first m = id)) = true) ∧
      (ecs_search_first block id = none →
        callback_group_by_relationship block id = 0) := by
  constructor
  · intro m hm
    have hm2 : block.find?
        (fun x => ecs_is_pair x && decide (ecs_pair_first x = id)) = some m := hm
    refine ⟨?_, ?_, ?_⟩
    · unfold callback_group_by_relationship
      rw [hm]
    · exact List.mem_of_find?_eq_some hm2
    · have h3 := List.find?_some hm2
      simpa using h3
  · intro hnone
    unfold callback_group_by_relationship
    rw [hnone]

/-- Witness for claim C9: a block holding a tag and a pair on relationship 5
with target 9 groups to the second component of that pair. -/
theorem group_by_relationship_spec_witness :
    ecs_search_first [3, ecs_pair 5 9] 5 = some (ecs_pair 5 9) ∧
      callback_group_by_relationship [3, ecs_pair 5 9] 5
        = ecs_pair_second (ecs_pair 5 9) :=
  ⟨by decide,
    ((group_by_relationship_spec [3, ecs_pair 5 9] 5).1 (ecs_pair 5 9)
      (by decide)).1⟩

end FlecsRust
